import Mathlib

/-!
Verification development for the rclone Vault backend (package
backend/vault and its helper packages).  The definitions below are shallow
embeddings of the Go source: byte strings are lists of naturals below 256,
machine integers are Nat or Int with explicit reduction modulo powers of
two where the code relies on wrap-around, and fallible operations return
Except or Option.
-/

/-! ## Bit operations on 32-bit words (crypto/md5 arithmetic) -/

/-- Reduction of a natural number to a 32-bit word. -/
def u32 (x : Nat) : Nat := x % 4294967296

/-- Addition modulo 2^32, the word addition used throughout MD5. -/
def add32 (a b : Nat) : Nat := (a + b) % 4294967296

/-- Bitwise complement on 32-bit words. -/
def not32 (x : Nat) : Nat := 4294967295 - x % 4294967296

/-- Left rotation of a 32-bit word by s positions (0 < s < 32). -/
def rotl32 (x s : Nat) : Nat :=
  (x % 4294967296) * 2 ^ s % 4294967296 + x % 4294967296 / 2 ^ (32 - s)

/-! ## MD5 (crypto/md5 of the Go standard library, RFC 1321)

The batcher derives flow identifiers from an MD5 digest, so the digest
function is embedded here in full.  Messages are lists of bytes
(naturals below 256); the digest is the list of 16 output bytes. -/

/-- Table of the 64 MD5 sine-derived constants, floor(abs(sin(i+1)) * 2^32). -/
def md5K : List Nat :=
  [3614090360, 3905402710, 606105819, 3250441966,
   4118548399, 1200080426, 2821735955, 4249261313,
   1770035416, 2336552879, 4294925233, 2304563134,
   1804603682, 4254626195, 2792965006, 1236535329,
   4129170786, 3225465664, 643717713, 3921069994,
   3593408605, 38016083, 3634488961, 3889429448,
   568446438, 3275163606, 4107603335, 1163531501,
   2850285829, 4243563512, 1735328473, 2368359562,
   4294588738, 2272392833, 1839030562, 4259657740,
   2763975236, 1272893353, 4139469664, 3200236656,
   681279174, 3936430074, 3572445317, 76029189,
   3654602809, 3873151461, 530742520, 3299628645,
   4096336452, 1126891415, 2878612391, 4237533241,
   1700485571, 2399980690, 4293915773, 2240044497,
   1873313359, 4264355552, 2734768916, 1309151649,
   4149444226, 3174756917, 718787259, 3951481745]

/-- Table of the 64 MD5 per-step left-rotation amounts. -/
def md5S : List Nat :=
  [7, 12, 17, 22, 7, 12, 17, 22, 7, 12, 17, 22, 7, 12, 17, 22,
   5, 9, 14, 20, 5, 9, 14, 20, 5, 9, 14, 20, 5, 9, 14, 20,
   4, 11, 16, 23, 4, 11, 16, 23, 4, 11, 16, 23, 4, 11, 16, 23,
   6, 10, 15, 21, 6, 10, 15, 21, 6, 10, 15, 21, 6, 10, 15, 21]

/-- Little-endian decoding of the g-th 32-bit word of a 64-byte block. -/
def md5Word (block : List Nat) (g : Nat) : Nat :=
  block.getD (4 * g) 0 + 256 * block.getD (4 * g + 1) 0 +
    65536 * block.getD (4 * g + 2) 0 + 16777216 * block.getD (4 * g + 3) 0

/-- Single MD5 round step i on state (a, b, c, d) for a given block. -/
def md5Step (block : List Nat) (st : Nat × Nat × Nat × Nat) (i : Nat) :
    Nat × Nat × Nat × Nat :=
  let a := st.1
  let b := st.2.1
  let c := st.2.2.1
  let d := st.2.2.2
  let f :=
    if i < 16 then (b &&& c) ||| (not32 b &&& d)
    else if i < 32 then (b &&& d) ||| (c &&& not32 d)
    else if i < 48 then b ^^^ c ^^^ d
    else c ^^^ (b ||| not32 d)
  let g :=
    if i < 16 then i
    else if i < 32 then (5 * i + 1) % 16
    else if i < 48 then (3 * i + 5) % 16
    else 7 * i % 16
  let x := add32 (add32 a f) (add32 (md5K.getD i 0) (md5Word block g))
  (d, add32 b (rotl32 x (md5S.getD i 0)), b, c)

/-- Compression of one 64-byte block into the running MD5 state. -/
def md5Block (st : Nat × Nat × Nat × Nat) (block : List Nat) :
    Nat × Nat × Nat × Nat :=
  let r := (List.range 64).foldl (md5Step block) st
  (add32 st.1 r.1, add32 st.2.1 r.2.1, add32 st.2.2.1 r.2.2.1,
    add32 st.2.2.2 r.2.2.2)

/-- Folding of the MD5 compression over consecutive 64-byte blocks. -/
def md5Blocks (st : Nat × Nat × Nat × Nat) : List Nat → Nat × Nat × Nat × Nat
  | [] => st
  | x :: xs => md5Blocks (md5Block st ((x :: xs).take 64)) ((x :: xs).drop 64)
termination_by l => l.length
decreasing_by simp; omega

/-- Little-endian byte serialization of a number into n bytes. -/
def leBytes (n x : Nat) : List Nat :=
  (List.range n).map fun i => x / 2 ^ (8 * i) % 256

/-- MD5 padding: a 0x80 byte, zeros up to 56 mod 64, and the 64-bit
little-endian bit length of the message. -/
def md5Pad (msg : List Nat) : List Nat :=
  msg ++ [128] ++ List.replicate ((119 - msg.length % 64) % 64) 0 ++
    leBytes 8 (msg.length * 8 % 2 ^ 64)

/-- MD5 digest of a byte list: the 16 digest bytes, little-endian per word. -/
def md5Bytes (msg : List Nat) : List Nat :=
  let st := md5Blocks (1732584193, 4023233417, 2562383102, 271733878)
    (md5Pad msg)
  leBytes 4 st.1 ++ leBytes 4 st.2.1 ++ leBytes 4 st.2.2.1 ++
    leBytes 4 st.2.2.2

/-! ## Hex encoding (fmt %x and encoding/hex, lowercase) -/

/-- Lowercase hexadecimal digit for a value below 16. -/
def hexDigit (n : Nat) : Char :=
  if n < 10 then Char.ofNat (48 + n) else Char.ofNat (87 + n)

/-- Lowercase hex string of a byte list, two digits per byte, as produced
by the %x verb of the fmt package. -/
def bytesToHex (l : List Nat) : String :=
  String.mk (l.flatMap fun b => [hexDigit (b / 16), hexDigit (b % 16)])

/-- UTF-8 bytes of a string, as Go sees the bytes of a string value. -/
def utf8Bytes (s : String) : List Nat :=
  s.toUTF8.toList.map fun b => b.toNat

/-! ## Flow identifier derivation (batcher.go, deriveFlowIdentifier)

The source opens the spool file, copies at most 1&lt;&lt;24 bytes (16 MiB) of it
into an MD5 hash, writes the backend root string and the item remote path
into the same hash, and formats the digest as
rclone-vault-flow-&lt;hex digest&gt;.  In the model the spool file content is
given as a byte list, so the I/O error branch (which falls back to a
random identifier) cannot arise. -/

/-- Embedding of batchItem.deriveFlowIdentifier: MD5 over the first 16 MiB
of the spool content followed by the root and the remote, rendered as
rclone-vault-flow-&lt;hex&gt;. -/
def deriveFlowIdentifier (content : List Nat) (root remote : String) : String :=
  "rclone-vault-flow-" ++
    bytesToHex (md5Bytes (content.take 16777216 ++ utf8Bytes root ++ utf8Bytes remote))

lemma length_leBytes (n x : Nat) : (leBytes n x).length = n := by
  simp [leBytes]

lemma md5Bytes_length (msg : List Nat) : (md5Bytes msg).length = 16 := by
  simp [md5Bytes, length_leBytes]

lemma length_flatMap_pair {α β : Type} (f g : α → β) (l : List α) :
    (l.flatMap fun b => [f b, g b]).length = 2 * l.length := by
  induction l with
  | nil => simp
  | cons x xs ih => simp [ih]; omega

lemma bytesToHex_length (l : List Nat) :
    (bytesToHex l).length = 2 * l.length := by
  induction l with
  | nil => rfl
  | cons x xs ih =>
      simp [bytesToHex, String.length] at ih ⊢
      omega

/-! ## Chunker (batcher.go, NewChunker / NumChunks / ChunkReader)

The chunker opens a spool file and serves fixed-size windows of it.  In
the model the file is its list of content bytes.  The source computes the
chunk count as int64(math.Ceil(float64(size) / float64(chunkSize)));
for any size below 2^53 the float64 quotient is exact enough that this
equals the integer ceiling, which the model computes directly (the exact
rational ceiling is proved equal below). -/

/-- Number of chunks of a file of the given size: the integer ceiling of
size / chunkSize. -/
def numChunks (size chunkSize : Nat) : Nat := (size + chunkSize - 1) / chunkSize

/-- Embedding of Chunker.ChunkReader: io.NewSectionReader(f, i*chunkSize,
chunkSize) yields the bytes from offset i*chunkSize up to chunkSize bytes,
clamped at end of file. -/
def chunkReader (file : List Nat) (chunkSize i : Nat) : List Nat :=
  (file.drop (i * chunkSize)).take chunkSize

/-- Per-chunk size computed inside Shutdown for 1-based chunk number j:
chunkSize, except for the last chunk where the source assigns
fileSize - (j-1)*chunkSize (int64 arithmetic, modelled on Int). -/
def currentChunkSize (fileSize chunkSize j : Nat) : Int :=
  if j = numChunks fileSize chunkSize then
    (fileSize : Int) - ((j : Int) - 1) * (chunkSize : Int)
  else (chunkSize : Int)

lemma le_mul_numChunks (N C : Nat) (hC : 0 < C) : N ≤ C * numChunks N C := by
  unfold numChunks
  have h := Nat.div_add_mod (N + C - 1) C
  have hm := Nat.mod_lt (N + C - 1) hC
  generalize hq : (N + C - 1) / C = q at h ⊢
  generalize hr : (N + C - 1) % C = r at h hm
  generalize hcq : C * q = cq at h ⊢
  omega

lemma mul_numChunks_lt (N C : Nat) (hC : 0 < C) : C * numChunks N C < N + C := by
  unfold numChunks
  have h := Nat.div_add_mod (N + C - 1) C
  generalize hq : (N + C - 1) / C = q at h ⊢
  generalize hr : (N + C - 1) % C = r at h
  generalize hcq : C * q = cq at h ⊢
  omega

lemma numChunks_eq_ceil (N C : Nat) (hC : 0 < C) :
    (numChunks N C : Int) = ⌈(N : ℚ) / (C : ℚ)⌉ := by
  have hq : (0 : ℚ) < (C : ℚ) := by exact_mod_cast hC
  have h1 : (N : ℚ) ≤ (C : ℚ) * (numChunks N C : ℚ) := by
    exact_mod_cast le_mul_numChunks N C hC
  have h2 : (C : ℚ) * (numChunks N C : ℚ) < (N : ℚ) + (C : ℚ) := by
    exact_mod_cast mul_numChunks_lt N C hC
  rw [eq_comm, Int.ceil_eq_iff]
  constructor
  · rw [lt_div_iff₀ hq]
    push_cast
    nlinarith
  · rw [div_le_iff₀ hq]
    push_cast
    nlinarith

lemma numChunks_zero_iff (N C : Nat) (hC : 0 < C) :
    numChunks N C = 0 ↔ N = 0 := by
  constructor
  · intro h
    have := le_mul_numChunks N C hC
    rw [h] at this
    simpa using this
  · intro h
    subst h
    exact Nat.div_eq_of_lt (by omega)

lemma numChunks_succ (N C : Nat) (hC : 0 < C) (hN : 0 < N) :
    numChunks N C = numChunks (N - C) C + 1 := by
  unfold numChunks
  rcases le_or_lt N C with h | h
  · have hNC : N - C = 0 := by omega
    rw [hNC]
    have e1 : N + C - 1 = (N - 1) + C := by omega
    rw [e1, Nat.add_div_right _ hC]
    have e2 : (N - 1) / C = 0 := Nat.div_eq_of_lt (by omega)
    have e3 : (0 + C - 1) / C = 0 := Nat.div_eq_of_lt (by omega)
    omega
  · have e1 : N + C - 1 = (N - 1) + C := by omega
    have e2 : N - C + C - 1 = (N - C - 1) + C := by omega
    have e3 : N - 1 = (N - C - 1) + C := by omega
    rw [e1, e2, Nat.add_div_right _ hC, Nat.add_div_right _ hC, e3,
      Nat.add_div_right _ hC]

lemma chunkReader_succ (file : List Nat) (C i : Nat) :
    chunkReader file C (i + 1) = chunkReader (file.drop C) C i := by
  unfold chunkReader
  rw [List.drop_drop]
  have e : C + i * C = (i + 1) * C := by ring
  rw [e]

lemma chunkReader_length (file : List Nat) (C i : Nat) :
    (chunkReader file C i).length = min ((i + 1) * C) file.length - i * C := by
  unfold chunkReader
  rw [List.length_take, List.length_drop]
  have e : (i + 1) * C = i * C + C := by ring
  rw [e]
  omega

lemma chunkReader_getElem (file : List Nat) (C i k : Nat) :
    (chunkReader file C i)[k]? = if k < C then file[i * C + k]? else none := by
  unfold chunkReader
  rw [List.getElem?_take, List.getElem?_drop]

lemma flatMap_chunkReader_eq (C : Nat) (hC : 0 < C) :
    ∀ (n : Nat) (file : List Nat), numChunks file.length C = n →
      (List.range n).flatMap (chunkReader file C) = file := by
  intro n
  induction n with
  | zero =>
      intro file h
      have h0 : file.length = 0 := (numChunks_zero_iff _ _ hC).mp h
      have h1 : file = [] := List.length_eq_zero.mp h0
      simp [h1]
  | succ n ih =>
      intro file h
      have hN : 0 < file.length := by
        by_contra hc
        have h0 : file.length = 0 := by omega
        have := (numChunks_zero_iff file.length C hC).mpr h0
        omega
      have hstep := numChunks_succ file.length C hC hN
      have hdrop : numChunks (file.drop C).length C = n := by
        rw [List.length_drop]
        omega
      rw [List.range_succ_eq_map, List.flatMap_cons]
      have hmap : (List.map Nat.succ (List.range n)).flatMap (chunkReader file C)
          = (List.range n).flatMap (chunkReader (file.drop C) C) := by
        rw [List.flatMap_map]
        have hfun : (fun a => chunkReader file C (Nat.succ a))
            = chunkReader (file.drop C) C := by
          funext i
          exact chunkReader_succ file C i
        rw [hfun]
      rw [hmap, ih _ hdrop]
      show chunkReader file C 0 ++ file.drop C = file
      unfold chunkReader
      simp [List.take_append_drop]

lemma currentChunkSize_eq_length (file : List Nat) (C j : Nat) (hC : 0 < C)
    (h1 : 1 ≤ j) (h2 : j ≤ numChunks file.length C) :
    currentChunkSize file.length C j = ((chunkReader file C (j - 1)).length : Int) := by
  obtain ⟨i, rfl⟩ : ∃ i, j = i + 1 := ⟨j - 1, by omega⟩
  have hub := le_mul_numChunks file.length C hC
  have hlb := mul_numChunks_lt file.length C hC
  have hlen := chunkReader_length file C i
  unfold currentChunkSize
  by_cases hj : i + 1 = numChunks file.length C
  · rw [if_pos hj]
    have hN : file.length ≤ (i + 1) * C := by
      rw [← hj] at hub
      calc file.length ≤ C * (i + 1) := hub
      _ = (i + 1) * C := by ring
    have hiC : i * C < file.length := by
      rw [← hj] at hlb
      have e : C * (i + 1) = i * C + C := by ring
      rw [e] at hlb
      omega
    have hmin : min ((i + 1) * C) file.length = file.length :=
      min_eq_right hN
    have e0 : i + 1 - 1 = i := by omega
    rw [e0, hlen, hmin]
    have hcast : ((file.length - i * C : Nat) : Int)
        = (file.length : Int) - ((i * C : Nat) : Int) := by
      omega
    rw [hcast]
    push_cast
    ring
  · rw [if_neg hj]
    have hjk : i + 1 < numChunks file.length C := by omega
    obtain ⟨k, hk⟩ : ∃ k, numChunks file.length C = k + 1 :=
      ⟨numChunks file.length C - 1, by omega⟩
    have hik : i + 1 ≤ k := by omega
    have hkC : C * k < file.length := by
      rw [hk] at hlb
      have e : C * (k + 1) = C * k + C := by ring
      rw [e] at hlb
      omega
    have hiN : (i + 1) * C ≤ file.length := by
      have h3 : (i + 1) * C ≤ k * C := Nat.mul_le_mul_right C hik
      have h4 : k * C = C * k := by ring
      omega
    have e0 : i + 1 - 1 = i := by omega
    rw [e0, hlen, min_eq_left hiN]
    have e1 : (i + 1) * C = i * C + C := by ring
    have hcast : ((i + 1) * C - i * C : Nat) = C := by omega
    rw [hcast]

/-- C2: for a spool file of size N and chunk size C >= 1, the chunker has
NumChunks = ceil(N / C); ChunkReader(i) reads exactly the byte range
from i*C to min((i+1)*C, N) of the file; the per-chunk size computed in
Shutdown equals the number of bytes of the corresponding chunk, namely C
for every chunk except the last whose size is N - (ceil(N/C)-1)*C; and
the concatenation of chunks 0 .. NumChunks-1 equals the file. -/
theorem chunker_spec (file : List Nat) (C : Nat) (hC : 0 < C) :
    ((numChunks file.length C : Int) = ⌈(file.length : ℚ) / (C : ℚ)⌉)
    ∧ (∀ i, (chunkReader file C i).length
        = min ((i + 1) * C) file.length - i * C)
    ∧ (∀ i k, (chunkReader file C i)[k]?
        = if k < C then file[i * C + k]? else none)
    ∧ (∀ j, 1 ≤ j → j ≤ numChunks file.length C →
        currentChunkSize file.length C j
          = ((chunkReader file C (j - 1)).length : Int)
        ∧ (j < numChunks file.length C →
            currentChunkSize file.length C j = (C : Int))
        ∧ (j = numChunks file.length C →
            currentChunkSize file.length C j
              = (file.length : Int)
                - ((numChunks file.length C : Int) - 1) * (C : Int)))
    ∧ (List.range (numChunks file.length C)).flatMap (chunkReader file C)
        = file := by
  refine ⟨numChunks_eq_ceil file.length C hC,
    fun i => chunkReader_length file C i,
    fun i k => chunkReader_getElem file C i k,
    fun j hj1 hj2 => ⟨currentChunkSize_eq_length file C j hC hj1 hj2, ?_, ?_⟩,
    flatMap_chunkReader_eq C hC (numChunks file.length C) file rfl⟩
  · intro hlt
    unfold currentChunkSize
    rw [if_neg (by omega)]
  · intro heq
    unfold currentChunkSize
    rw [if_pos heq, heq]

/-- Witness for chunker_spec at a concrete file of 5 bytes and chunk
size 2. -/
theorem chunker_spec_witness :
    0 < 2 ∧
    (((numChunks (([10, 20, 30, 40, 50] : List Nat)).length 2 : Int)
        = ⌈((([10, 20, 30, 40, 50] : List Nat)).length : ℚ) / (2 : ℚ)⌉)
    ∧ (∀ i, (chunkReader [10, 20, 30, 40, 50] 2 i).length
        = min ((i + 1) * 2) (([10, 20, 30, 40, 50] : List Nat)).length - i * 2)
    ∧ (∀ i k, (chunkReader [10, 20, 30, 40, 50] 2 i)[k]?
        = if k < 2 then ([10, 20, 30, 40, 50] : List Nat)[i * 2 + k]? else none)
    ∧ (∀ j, 1 ≤ j → j ≤ numChunks (([10, 20, 30, 40, 50] : List Nat)).length 2 →
        currentChunkSize (([10, 20, 30, 40, 50] : List Nat)).length 2 j
          = ((chunkReader [10, 20, 30, 40, 50] 2 (j - 1)).length : Int)
        ∧ (j < numChunks (([10, 20, 30, 40, 50] : List Nat)).length 2 →
            currentChunkSize (([10, 20, 30, 40, 50] : List Nat)).length 2 j = (2 : Int))
        ∧ (j = numChunks (([10, 20, 30, 40, 50] : List Nat)).length 2 →
            currentChunkSize (([10, 20, 30, 40, 50] : List Nat)).length 2 j
              = ((([10, 20, 30, 40, 50] : List Nat)).length : Int)
                - ((numChunks (([10, 20, 30, 40, 50] : List Nat)).length 2 : Int) - 1) * (2 : Int)))
    ∧ (List.range (numChunks (([10, 20, 30, 40, 50] : List Nat)).length 2)).flatMap
        (chunkReader [10, 20, 30, 40, 50] 2)
        = [10, 20, 30, 40, 50]) :=
  ⟨by decide, chunker_spec [10, 20, 30, 40, 50] 2 (by decide)⟩

/-- C1: for every batch item whose spool file is readable,
deriveFlowIdentifier returns rclone-vault-flow-&lt;hex digest&gt; where the
digest is the MD5 of the first 16 MiB of the spool content with the
backend root string and the remote path mixed in; the hex digest is 32
characters; and the result depends only on (16 MiB prefix, root, remote),
so it is stable across runs. -/
theorem deriveFlowIdentifier_spec (content : List Nat) (root remote : String) :
    deriveFlowIdentifier content root remote
      = "rclone-vault-flow-" ++
          bytesToHex (md5Bytes
            (content.take 16777216 ++ utf8Bytes root ++ utf8Bytes remote))
    ∧ (bytesToHex (md5Bytes
        (content.take 16777216 ++ utf8Bytes root ++ utf8Bytes remote))).length = 32
    ∧ ∀ (content2 : List Nat) (root2 remote2 : String),
        content2.take 16777216 = content.take 16777216 → root2 = root →
        remote2 = remote →
        deriveFlowIdentifier content2 root2 remote2
          = deriveFlowIdentifier content root remote := by
  refine ⟨rfl, ?_, ?_⟩
  · rw [bytesToHex_length, md5Bytes_length]
  · intro c2 r2 m2 hc hr hm
    unfold deriveFlowIdentifier
    rw [hc, hr, hm]

/-- Witness for deriveFlowIdentifier_spec at concrete inputs, with the
stability hypotheses discharged on concrete values. -/
theorem deriveFlowIdentifier_spec_witness :
    (([7, 8] : List Nat).take 16777216 = ([7, 8] : List Nat).take 16777216
      ∧ "ro" = "ro" ∧ "a/b" = "a/b")
    ∧ deriveFlowIdentifier [7, 8] "ro" "a/b"
        = deriveFlowIdentifier [7, 8] "ro" "a/b" :=
  ⟨⟨rfl, rfl, rfl⟩,
    (deriveFlowIdentifier_spec [7, 8] "ro" "a/b").2.2 [7, 8] "ro" "a/b"
      rfl rfl rfl⟩

/-! ## Batch items and the deposit manifest (batcher.go, batchItem / ToFile)

A batchItem captures the arguments of Put: the backend root, the local
spool file (here: its path and its content bytes), and the source object
info (remote path, size, modification time).  The content type field
stands for the result of the MIME sniffing of the first 512 bytes, a
http.DetectContentType call outside this repository. -/

/-- Broken-down time as used by Go time formatting (the source formats
the modification time with a layout string; no time zone conversion is
involved because the layout has no zone token). -/
structure GoTime where
  year : Nat
  month : Nat
  day : Nat
  hour : Nat
  minute : Nat
  second : Nat
  millis : Nat
deriving DecidableEq

/-- Zero-padding to width 2, as Go layout tokens 01, 02, 03, 04, 05 pad. -/
def pad2 (n : Nat) : String := if n < 10 then "0" ++ toString n else toString n

/-- Zero-padding to width 3, as the Go fraction token .000 pads. -/
def pad3 (n : Nat) : String :=
  if n < 10 then "00" ++ toString n
  else if n < 100 then "0" ++ toString n
  else toString n

/-- Zero-padding to width 4, as the Go year token 2006 pads. -/
def pad4 (n : Nat) : String :=
  if n < 10 then "000" ++ toString n
  else if n < 100 then "00" ++ toString n
  else if n < 1000 then "0" ++ toString n
  else toString n

/-- Hour on the 12-hour clock: Go resolves the layout token 03 to the
zero-padded 12-hour hour (hour mod 12, with 0 rendered as 12). -/
def hour12 (h : Nat) : Nat := if h % 12 = 0 then 12 else h % 12

/-- Rendering of the Go layout string "2006-01-02T03:04:05.000Z" used for
the pre_deposit_modified_at manifest field: year, month, day, a literal T,
the 12-HOUR hour (token 03; the 24-hour hour would be token 15), minute,
second, a 3-digit millisecond fraction, and a literal Z (a lone Z in a Go
layout is not a zone token). -/
def formatManifestTime (t : GoTime) : String :=
  pad4 t.year ++ "-" ++ pad2 t.month ++ "-" ++ pad2 t.day ++ "T" ++
    pad2 (hour12 t.hour) ++ ":" ++ pad2 t.minute ++ ":" ++ pad2 t.second ++
    "." ++ pad3 t.millis ++ "Z"

/-- Client-side record of one pending upload (batchItem in the source). -/
structure BatchItemR where
  root : String
  filename : String
  remote : String
  size : Int
  modTime : GoTime
  content : List Nat
  ctype : String
deriving DecidableEq

/-- Manifest File entry (api.File) as filled in by ToFile. -/
structure FileR where
  name : String
  flowIdentifier : String
  relativePath : String
  size : Int
  preDepositModifiedAt : String
  ctype : String
deriving DecidableEq

/-- Embedding of Go path.Base: the last element of the path after
stripping trailing slashes; "." for the empty path, "/" if everything
was slashes. -/
def goPathBase (p : String) : String :=
  if p = "" then "."
  else
    let q := p.dropRightWhile fun c => c = '/'
    if q = "" then "/" else (q.splitOn "/").getLastD q

/-- Embedding of batchItem.ToFile: name is the base of the remote path,
the flow identifier is derived from the spool content (the random
fallback branch needs an I/O failure and cannot arise in the model), the
relative path is the remote, and the modification time is rendered with
the layout "2006-01-02T03:04:05.000Z". -/
def BatchItemR.ToFile (item : BatchItemR) : FileR :=
  { name := goPathBase item.remote
    flowIdentifier := deriveFlowIdentifier item.content item.root item.remote
    relativePath := item.remote
    size := item.size
    preDepositModifiedAt := formatManifestTime item.modTime
    ctype := item.ctype }

/-- Concrete batch item whose modification time falls at 13:04 on the
24-hour clock, exercising the hour rendering of ToFile. -/
def demoItem13h : BatchItemR :=
  { root := "", filename := "spool", remote := "dir/file.bin", size := 1,
    modTime := { year := 2023, month := 1, day := 2, hour := 13,
                 minute := 4, second := 5, millis := 6 },
    content := [], ctype := "" }

/-- C5: the pre_deposit_modified_at field produced by ToFile for a
modification time of 13:04:05.006 on 2023-01-02 renders the hour as "01",
because the Go layout token 03 is the 12-hour clock hour; the claimed
24-hour rendering "...T13:..." is not produced. -/
theorem toFile_preDepositModifiedAt_12h :
    (demoItem13h.ToFile).preDepositModifiedAt = "2023-01-02T01:04:05.006Z"
    ∧ ("2023-01-02T01:04:05.006Z" : String) ≠ "2023-01-02T13:04:05.006Z" :=
  ⟨rfl, by decide⟩

/-! ## Batcher state and Add (batcher.go, batcher / Add)

Add takes the mutex, lazily allocates the seen map, and appends the item
only if its spool file path has not been seen; the Go map of seen spool
paths is modelled as the list of its keys. -/

/-- Mutable batcher state relevant to Add: the ordered item list and the
set of spool-file paths already seen. -/
structure BatchState where
  items : List BatchItemR
  seen : List String
deriving DecidableEq

/-- Embedding of batcher.Add: append the item and record its spool path
unless the path is already in the seen set. -/
def batcherAdd (b : BatchState) (item : BatchItemR) : BatchState :=
  if item.filename ∈ b.seen then b
  else { items := b.items ++ [item], seen := b.seen ++ [item.filename] }

/-- Result of a finite sequence of Add calls starting from a fresh
batcher. -/
def batcherAddAll (l : List BatchItemR) : BatchState :=
  l.foldl batcherAdd { items := [], seen := [] }

/-- List of first occurrences of each value, in first-insertion order:
the order the claim requires of the deduplicated batch. -/
def firstOccurrences (l : List String) : List String :=
  l.foldl (fun acc x => if x ∈ acc then acc else acc ++ [x]) []

lemma batcherAdd_fold (l : List BatchItemR) :
    ∀ (s : BatchState), s.seen = s.items.map (fun it => it.filename) →
    (l.foldl batcherAdd s).seen
        = ((l.foldl batcherAdd s).items.map fun it => it.filename)
    ∧ ((l.foldl batcherAdd s).items.map fun it => it.filename)
        = (l.map fun it => it.filename).foldl
            (fun acc x => if x ∈ acc then acc else acc ++ [x])
            (s.items.map fun it => it.filename) := by
  induction l with
  | nil => intro s hseen; exact ⟨hseen, rfl⟩
  | cons it rest ih =>
      intro s hseen
      simp only [List.foldl_cons, List.map_cons]
      by_cases h : it.filename ∈ s.seen
      · have hstep : batcherAdd s it = s := by
          unfold batcherAdd
          rw [if_pos h]
        have hmem : it.filename ∈ (s.items.map fun it => it.filename) := by
          rw [← hseen]; exact h
        rw [hstep, if_pos hmem]
        exact ih s hseen
      · have hstep : batcherAdd s it
            = ⟨s.items ++ [it], s.seen ++ [it.filename]⟩ := by
          unfold batcherAdd
          rw [if_neg h]
        have hmem : it.filename ∉ (s.items.map fun it => it.filename) := by
          rw [← hseen]; exact h
        rw [hstep, if_neg hmem]
        have hseen2 : (⟨s.items ++ [it], s.seen ++ [it.filename]⟩
              : BatchState).seen
            = ((⟨s.items ++ [it], s.seen ++ [it.filename]⟩
              : BatchState).items.map fun x => x.filename) := by
          simp [hseen]
        have hres := ih ⟨s.items ++ [it], s.seen ++ [it.filename]⟩ hseen2
        simpa using hres

lemma foldl_insert_nodup (l : List String) :
    ∀ acc : List String, acc.Nodup →
      (l.foldl (fun acc x => if x ∈ acc then acc else acc ++ [x]) acc).Nodup := by
  induction l with
  | nil => intro acc hacc; exact hacc
  | cons x rest ih =>
      intro acc hacc
      simp only [List.foldl_cons]
      by_cases h : x ∈ acc
      · rw [if_pos h]; exact ih acc hacc
      · rw [if_neg h]
        refine ih _ ?_
        simp [List.nodup_append, hacc, h]

lemma foldl_insert_mem (l : List String) :
    ∀ (acc : List String) (x : String),
      (x ∈ l.foldl (fun acc y => if y ∈ acc then acc else acc ++ [y]) acc)
        ↔ x ∈ acc ∨ x ∈ l := by
  induction l with
  | nil => intro acc x; simp
  | cons y rest ih =>
      intro acc x
      simp only [List.foldl_cons]
      by_cases h : y ∈ acc
      · rw [if_pos h, ih]
        constructor
        · rintro (h1 | h1)
          · exact Or.inl h1
          · exact Or.inr (List.mem_cons_of_mem _ h1)
        · rintro (h1 | h1)
          · exact Or.inl h1
          · rcases List.mem_cons.mp h1 with rfl | h2
            · exact Or.inl h
            · exact Or.inr h2
      · rw [if_neg h, ih]
        simp only [List.mem_append, List.mem_cons, List.mem_singleton]
        tauto

lemma batcherAdd_seen (b : BatchState) (item : BatchItemR)
    (h : item.filename ∈ b.seen) : batcherAdd b item = b := by
  unfold batcherAdd
  rw [if_pos h]

/-- C3: after any finite sequence of Add calls, the batch items carry
each distinct spool-file path exactly once, in first-insertion order
(equality with firstOccurrences plus Nodup), the items cover exactly the
spool paths passed in, and an Add of an already-seen spool path leaves
the state unchanged. -/
theorem batcher_add_dedup (l : List BatchItemR) :
    ((batcherAddAll l).items.map fun it => it.filename)
        = firstOccurrences (l.map fun it => it.filename)
    ∧ ((batcherAddAll l).items.map fun it => it.filename).Nodup
    ∧ (∀ s, (s ∈ ((batcherAddAll l).items.map fun it => it.filename))
        ↔ s ∈ (l.map fun it => it.filename))
    ∧ (∀ it : BatchItemR, it.filename ∈ (batcherAddAll l).seen →
        batcherAdd (batcherAddAll l) it = batcherAddAll l) := by
  unfold batcherAddAll firstOccurrences
  obtain ⟨hseen, heq⟩ := batcherAdd_fold l { items := [], seen := [] } rfl
  simp only [show ({ items := [], seen := [] } : BatchState).items = []
    from rfl, List.map_nil] at heq
  refine ⟨heq, ?_, ?_, ?_⟩
  · rw [heq]
    exact foldl_insert_nodup _ [] List.nodup_nil
  · intro s
    rw [heq, foldl_insert_mem]
    simp
  · intro it hmem
    exact batcherAdd_seen _ it hmem

/-- Witness for batcher_add_dedup: a duplicate Add on a concrete
two-item batch, with the already-seen hypothesis discharged concretely. -/
theorem batcher_add_dedup_witness :
    (demoItem13h.filename
        ∈ (batcherAddAll [demoItem13h, demoItem13h]).seen)
    ∧ batcherAdd (batcherAddAll [demoItem13h, demoItem13h]) demoItem13h
        = batcherAddAll [demoItem13h, demoItem13h] :=
  ⟨by decide, (batcher_add_dedup [demoItem13h, demoItem13h]).2.2.2
    demoItem13h (by decide)⟩

/-! ## Shutdown upload trace (batcher.go, Shutdown)

Shutdown registers a deposit (unless a resume id is configured) and then,
for each item in order and each 1-based chunk number j, issues a probe
GET and an upload POST on /flow_chunk carrying the same parameter set,
closing with the removal of the spool file.  The model records this
sequence of externally visible calls as a list of events, under the
happy path in which every response is accepted (probe status below 300)
and no I/O error occurs; error paths only truncate the trace and are not
needed by the claims below. -/

/-- Query/multipart parameter set sent with both legs of a chunk
transfer; all numeric values are serialized with strconv.Itoa. -/
structure ChunkParams where
  depositId : String
  flowChunkNumber : String
  flowChunkSize : String
  flowCurrentChunkSize : String
  flowFilename : String
  flowIdentifier : String
  flowRelativePath : String
  flowTotalChunks : String
  flowTotalSize : String
  uploadToken : String
deriving DecidableEq

/-- Externally visible effect of Shutdown. -/
inductive DepositEvent where
  | register (totalSize : Int) (collectionId : Option String)
      (parentNodeId : Option Int)
  | probeGET (p : ChunkParams)
  | uploadPOST (p : ChunkParams)
  | removeSpool (filename : String)
deriving DecidableEq

/-- Batcher configuration and environment at shutdown time: the resolved
parent node kind and identifiers, and the deposit id the server would
assign if RegisterDeposit were called. -/
structure BatcherModel where
  root : String
  chunkSize : Nat
  resumeDepositId : Int
  items : List BatchItemR
  parentNodeType : String
  parentCollectionId : String
  parentNodeId : Int
  freshDepositId : Int
deriving DecidableEq

/-- Parameter set for chunk number j (1-based) of a file of n content
bytes, exactly the url.Values built in Shutdown. -/
def chunkParamsFor (depositId : Int) (chunkSize : Nat) (f : FileR)
    (n : Nat) (j : Nat) : ChunkParams :=
  { depositId := toString depositId
    flowChunkNumber := toString j
    flowChunkSize := toString chunkSize
    flowCurrentChunkSize := toString (currentChunkSize n chunkSize j)
    flowFilename := f.name
    flowIdentifier := f.flowIdentifier
    flowRelativePath := f.relativePath
    flowTotalChunks := toString (numChunks n chunkSize)
    flowTotalSize := toString n
    uploadToken := "my_token" }

/-- Events produced for a single batch item: probe GET and upload POST
for chunks 1..numChunks, then removal of the spool file. -/
def itemEvents (depositId : Int) (chunkSize : Nat) (item : BatchItemR) :
    List DepositEvent :=
  ((List.range (numChunks item.content.length chunkSize)).flatMap fun i =>
    [DepositEvent.probeGET
        (chunkParamsFor depositId chunkSize item.ToFile
          item.content.length (i + 1)),
      DepositEvent.uploadPOST
        (chunkParamsFor depositId chunkSize item.ToFile
          item.content.length (i + 1))])
  ++ [DepositEvent.removeSpool item.filename]

/-- Embedding of batcher.Shutdown as its happy-path call trace: nothing
for an empty batch; otherwise a RegisterDeposit call (with collection_id
or parent_node_id depending on the parent node type) unless
resumeDepositId is positive, in which case the resume id is adopted;
then the per-item chunk transfers in insertion order. -/
def shutdownTrace (b : BatcherModel) : List DepositEvent :=
  if b.items = [] then []
  else
    (if 0 < b.resumeDepositId then []
     else [DepositEvent.register ((b.items.map fun it => it.size).sum)
        (if b.parentNodeType = "COLLECTION" then some b.parentCollectionId
         else none)
        (if b.parentNodeType = "FOLDER" then some b.parentNodeId else none)])
    ++ b.items.flatMap
        (itemEvents
          (if 0 < b.resumeDepositId then b.resumeDepositId
           else b.freshDepositId)
          b.chunkSize)

/-- C4: when resumeDepositId is positive and the batch is non-empty,
Shutdown emits no RegisterDeposit call, and every probe GET and upload
POST in the trace carries the depositId parameter rendered from
resumeDepositId. -/
theorem shutdown_resume_spec (b : BatcherModel)
    (hres : 0 < b.resumeDepositId) (hne : b.items ≠ []) :
    (∀ (ts : Int) (cid : Option String) (pid : Option Int),
        DepositEvent.register ts cid pid ∉ shutdownTrace b)
    ∧ (∀ p : ChunkParams, DepositEvent.probeGET p ∈ shutdownTrace b →
        p.depositId = toString b.resumeDepositId)
    ∧ (∀ p : ChunkParams, DepositEvent.uploadPOST p ∈ shutdownTrace b →
        p.depositId = toString b.resumeDepositId) := by
  have htrace : shutdownTrace b
      = b.items.flatMap (itemEvents b.resumeDepositId b.chunkSize) := by
    unfold shutdownTrace
    rw [if_neg hne, if_pos hres, if_pos hres, List.nil_append]
  refine ⟨?_, ?_, ?_⟩
  · intro ts cid pid hmem
    rw [htrace] at hmem
    rcases List.mem_flatMap.mp hmem with ⟨it, _, hev⟩
    unfold itemEvents at hev
    rcases List.mem_append.mp hev with h1 | h1
    · rcases List.mem_flatMap.mp h1 with ⟨i, _, h2⟩
      simp at h2
    · simp at h1
  · intro p hmem
    rw [htrace] at hmem
    rcases List.mem_flatMap.mp hmem with ⟨it, _, hev⟩
    unfold itemEvents at hev
    rcases List.mem_append.mp hev with h1 | h1
    · rcases List.mem_flatMap.mp h1 with ⟨i, _, h2⟩
      simp only [List.mem_cons, List.not_mem_nil, or_false] at h2
      rcases h2 with h2 | h2
      · injection h2 with h3
        subst h3
        rfl
      · exact DepositEvent.noConfusion h2
    · simp at h1
  · intro p hmem
    rw [htrace] at hmem
    rcases List.mem_flatMap.mp hmem with ⟨it, _, hev⟩
    unfold itemEvents at hev
    rcases List.mem_append.mp hev with h1 | h1
    · rcases List.mem_flatMap.mp h1 with ⟨i, _, h2⟩
      simp only [List.mem_cons, List.not_mem_nil, or_false] at h2
      rcases h2 with h2 | h2
      · exact DepositEvent.noConfusion h2
      · injection h2 with h3
        subst h3
        rfl
    · simp at h1

/-- Concrete batcher configured to resume deposit 42 with one item. -/
def demoResumeBatcher : BatcherModel :=
  { root := "", chunkSize := 2, resumeDepositId := 42,
    items := [demoItem13h], parentNodeType := "COLLECTION",
    parentCollectionId := "c1", parentNodeId := 0, freshDepositId := 7 }

/-- Witness for shutdown_resume_spec at the concrete resuming batcher. -/
theorem shutdown_resume_spec_witness :
    (0 < demoResumeBatcher.resumeDepositId
      ∧ demoResumeBatcher.items ≠ [])
    ∧ ((∀ (ts : Int) (cid : Option String) (pid : Option Int),
          DepositEvent.register ts cid pid ∉ shutdownTrace demoResumeBatcher)
      ∧ (∀ p : ChunkParams,
          DepositEvent.probeGET p ∈ shutdownTrace demoResumeBatcher →
          p.depositId = toString demoResumeBatcher.resumeDepositId)
      ∧ (∀ p : ChunkParams,
          DepositEvent.uploadPOST p ∈ shutdownTrace demoResumeBatcher →
          p.depositId = toString demoResumeBatcher.resumeDepositId)) :=
  ⟨⟨by decide, by decide⟩,
    shutdown_resume_spec demoResumeBatcher (by decide) (by decide)⟩

/-! ## RegisterDeposit error mapping (api/api.go, RegisterDeposit)

The rest client returns a non-nil error together with the response for
any non-2xx HTTP status.  RegisterDeposit inspects exactly the status
500 in its error branch: that status is mapped to the retry-after-short-
delay hint, and every other failing status is wrapped in a generic
"api failed" error; in both cases the returned deposit id is 0. -/

/-- Outcome of the CallJSON transport call inside RegisterDeposit. -/
inductive DepositCallOutcome where
  | success (id : Int)
  | failure (statusCode : Nat)
deriving DecidableEq

/-- Error classification produced by RegisterDeposit. -/
inductive RegisterDepositError where
  | retryHint
  | apiFailed
deriving DecidableEq

/-- Embedding of Api.RegisterDeposit error handling: on transport error,
status 500 is singled out for the retry hint ("a manual retry after a
short delay may succeed"); otherwise the error is wrapped verbatim; on
success the response deposit id is returned. -/
def registerDeposit : DepositCallOutcome → Int × Option RegisterDepositError
  | .success id => (id, none)
  | .failure status =>
      (0, some (if status == 500 then .retryHint else .apiFailed))

/-- C6 counterexample: the 5xx status 503 is NOT annotated with the
retry-after-short-delay hint; it falls through to the generic error. -/
theorem registerDeposit_503_no_retry_hint :
    registerDeposit (.failure 503) = (0, some .apiFailed)
    ∧ RegisterDepositError.apiFailed ≠ RegisterDepositError.retryHint := by
  decide

/-- C6 (amended): on a failing RegisterDeposit with a 5xx status the
returned id is 0 and the error carries the retry-after-short-delay hint
exactly when the status is 500; all other 5xx statuses yield the generic
api-failed error. -/
theorem registerDeposit_5xx_spec (s : Nat) (h5 : 500 ≤ s) (h6 : s ≤ 599) :
    registerDeposit (.failure s)
      = (0, some (if s = 500 then .retryHint else .apiFailed))
    ∧ ((registerDeposit (.failure s)).2
        = some RegisterDepositError.retryHint ↔ s = 500) := by
  unfold registerDeposit
  constructor
  · by_cases h : s = 500
    · simp [h]
    · simp [h]
  · by_cases h : s = 500
    · simp [h]
    · simp [h]

/-- Witness for registerDeposit_5xx_spec at status 500. -/
theorem registerDeposit_5xx_spec_witness :
    (500 ≤ 500 ∧ 500 ≤ 599)
    ∧ (registerDeposit (.failure 500)
        = (0, some (if 500 = 500 then RegisterDepositError.retryHint
            else RegisterDepositError.apiFailed))
      ∧ ((registerDeposit (.failure 500)).2
          = some RegisterDepositError.retryHint ↔ 500 = 500)) :=
  ⟨⟨by decide, by decide⟩, registerDeposit_5xx_spec 500 (by decide) (by decide)⟩

/-! ## Path validator (path.go, IsValidPath / IsValidPathPrefix)

Paths are handled as their character lists so that every operation
reduces inside the kernel; byte lengths are computed from the UTF-8 size
of each character, matching Go's len() on strings.  Lean strings are
always well-formed Unicode, so the utf8.ValidString test of the source
(which can only fail on byte strings that are not valid UTF-8, values a
Lean String cannot denote) always passes in the model. -/

/-- Go strings.Split on a single-character separator. -/
def splitChar (sep : Char) : List Char → List (List Char)
  | [] => [[]]
  | c :: cs =>
      if c = sep then [] :: splitChar sep cs
      else
        match splitChar sep cs with
        | [] => [[c]]
        | h :: t => (c :: h) :: t

/-- Go strings.Contains on character lists. -/
def containsSub (sub : List Char) : List Char → Bool
  | [] => sub.isEmpty
  | c :: cs => sub.isPrefixOf (c :: cs) || containsSub sub cs

/-- Go len() of a string: the total UTF-8 byte size of its characters. -/
def utf8Len (l : List Char) : Nat := (l.map fun c => c.utf8Size).sum

/-- Valid XML 1.0 character as accepted by the Go xml decoder (tab,
newline, carriage return, and the three scalar ranges excluding
surrogates and the two final noncharacters of the BMP). -/
def xmlValidChar (c : Char) : Bool :=
  c.toNat = 9 || c.toNat = 10 || c.toNat = 13 ||
    (32 ≤ c.toNat && c.toNat ≤ 55295) ||
    (57344 ≤ c.toNat && c.toNat ≤ 65533) ||
    (65536 ≤ c.toNat && c.toNat ≤ 1114111)

/-- Model of the source's XML well-formedness probe, which decodes
&lt;x&gt;path&lt;/x&gt; with encoding/xml (standard library, outside this
repository): for markup-free text the decode succeeds exactly when every
character is a valid XML character and none of them opens markup (&lt;) or
an entity reference (&amp;). -/
def xmlTextOk (l : List Char) : Bool :=
  l.all fun c => xmlValidChar c && c ≠ '<' && c ≠ '&'

/-- Suffix deny-list of the validator (invalidSuffixes in the source). -/
def invalidSuffixList : List String :=
  ["_files.xml", "_meta.sqlite", "_meta.xml", "_reviews.xml"]

/-- Item-name deny-list (DefaultVaultItemPrefixes in the source). -/
def defaultVaultItemNames : List String := ["DPS-VAULT", "IA-DPS-VAULT"]

/-- Embedding of IsValidPathPrefix: rejects the empty path, "/", paths
longer than 4096 bytes, paths containing "//", the reserved
bucket-name/suffix combinations, segments equal to "." or ".." or longer
than 255 bytes, NUL/LF/CR characters, and paths that fail the XML
well-formedness probe. -/
def IsValidPathWithBucket (remote bucket : String) : Bool :=
  let l := remote.data
  if l = [] then false
  else if l = ['/'] then false
  else if 4096 < utf8Len l then false
  else if containsSub ['/', '/'] l then false
  else if invalidSuffixList.any (fun suffix =>
      (bucket.data).isPrefixOf (l.dropWhile fun c => c = '/')
        && (suffix.data).isSuffixOf l) then false
  else if (splitChar '/' l).any (fun seg =>
      seg = ['.'] || seg = ['.', '.'] || 255 < utf8Len seg) then false
  else if l.any (fun c => c.toNat = 0 || c.toNat = 10 || c.toNat = 13) then
    false
  else xmlTextOk l

/-- Embedding of IsValidPath: the path must be acceptable for every
configured bucket-name entry. -/
def IsValidPath (remote : String) : Bool :=
  defaultVaultItemNames.all fun b => IsValidPathWithBucket remote b

/-- C7: the validator rejects "", "/", "/a/./b", "/a//b", a name with an
embedded NUL byte, and "/DPS-VAULT-42_meta.xml", and accepts "/a/b". -/
theorem isValidPath_cases :
    IsValidPath "" = false
    ∧ IsValidPath "/" = false
    ∧ IsValidPath "/a/./b" = false
    ∧ IsValidPath "/a//b" = false
    ∧ IsValidPath (String.mk ['a', Char.ofNat 0, 'b']) = false
    ∧ IsValidPath "/DPS-VAULT-42_meta.xml" = false
    ∧ IsValidPath "/a/b" = true := by
  decide

/-! ## TreeNodes and the path resolver (api/api.go, ResolvePath / SplitPath)

Server payload fields that are dynamically typed in Go (interface
values: content_url, size) are modelled as a tagged GoValue.  The server
is its list of tree nodes; FindTreeNodes with a parent and name filter is
the list filter.  Paths are processed on character lists so the theorems
evaluate inside the kernel. -/

/-- Dynamically typed JSON value as it lands in an interface field
(string, null, numeric - int64/int/float64 all convert to Int in the
accessors - or anything else). -/
inductive GoValue where
  | vNull
  | vStr (s : String)
  | vInt (n : Int)
  | vOther
deriving DecidableEq

/-- Vault TreeNode, with the fields the resolver and the content reader
consume. -/
structure TreeNodeR where
  id : Nat
  parent : Option Nat
  name : String
  nodeType : String
  contentUrl : GoValue
  objectSize : GoValue
deriving DecidableEq

/-- Server state: the flat list of all tree nodes. -/
structure VaultServer where
  nodes : List TreeNodeR
deriving DecidableEq

/-- Embedding of FindTreeNodes with a parent-id and name filter. -/
def findTreeNodes (srv : VaultServer) (parentId : Nat) (name : List Char) :
    List TreeNodeR :=
  srv.nodes.filter fun t => t.parent == some parentId && t.name.data == name

/-- Resolver and SplitPath error outcomes. -/
inductive ResolveError where
  | notFound
  | ambiguous
  | invalidPath (p : String)
deriving DecidableEq

/-- Segment walk of ResolvePath: one FindTreeNodes query per segment;
zero matches is NotFound, more than one is Ambiguous. -/
def resolveSegments (srv : VaultServer) :
    TreeNodeR → List (List Char) → Except ResolveError TreeNodeR
  | t, [] => .ok t
  | t, seg :: rest =>
      match findTreeNodes srv t.id seg with
      | [] => .error .notFound
      | [u] => resolveSegments srv u rest
      | _ :: _ :: _ => .error .ambiguous

/-- Go strings.TrimRight for a single trim character. -/
def dropTrailing (sep : Char) (l : List Char) : List Char :=
  (l.reverse.dropWhile fun c => c = sep).reverse

/-- Embedding of Api.ResolvePath: prepend "/" if missing, split the
right-trimmed path on "/" discarding the first (empty) part, reject a
non-root path with no segments, and walk the segments from the
organization root node. -/
def resolvePath (srv : VaultServer) (rootN : TreeNodeR) (p : String) :
    Except ResolveError TreeNodeR :=
  let q := if p.data.head? = some '/' then p.data else '/' :: p.data
  let segments := (splitChar '/' (dropTrailing '/' q)).drop 1
  if q ≠ [] ∧ q ≠ ['/'] ∧ segments = [] then .error .notFound
  else resolveSegments srv rootN segments

/-- Tuple returned by SplitPath. -/
structure PathInfoR where
  collectionTreeNode : TreeNodeR
  leafTreeNode : TreeNodeR
  relativePath : String
deriving DecidableEq

/-- Go strings.Join with separator "/". -/
def joinSlash : List (List Char) → List Char
  | [] => []
  | [x] => x
  | x :: y :: t => x ++ '/' :: joinSlash (y :: t)

/-- Embedding of Api.SplitPath: requires an absolute path, splits it on
"/", resolves "/" ++ parts[0] as the collection node and the full path
as the leaf node, and joins parts[2:] as the relative path ("/" when
empty).  Note that for an absolute path parts[0] is always the empty
string, so the collection resolution is of the path "/". -/
def splitPath (srv : VaultServer) (rootN : TreeNodeR) (p : String) :
    Except ResolveError PathInfoR :=
  if p.data.head? ≠ some '/' then .error (.invalidPath p)
  else
    let parts := splitChar '/' p.data
    if parts.length < 2 then .error (.invalidPath p)
    else do
      let col ← resolvePath srv rootN (String.mk ('/' :: parts.headD []))
      let leaf ← resolvePath srv rootN p
      let rel := joinSlash (parts.drop 2)
      pure { collectionTreeNode := col, leafTreeNode := leaf,
             relativePath := if rel = [] then "/" else String.mk rel }

/-- Organization root of the concrete demonstration server. -/
def demoOrgNode : TreeNodeR :=
  { id := 1, parent := none, name := "root", nodeType := "ORGANIZATION",
    contentUrl := .vNull, objectSize := .vNull }

/-- Collection "c" directly under the organization root. -/
def demoColNode : TreeNodeR :=
  { id := 2, parent := some 1, name := "c", nodeType := "COLLECTION",
    contentUrl := .vNull, objectSize := .vNull }

/-- File "rest" inside collection "c", with a null content URL and a
size of 5 bytes. -/
def demoFileNode : TreeNodeR :=
  { id := 3, parent := some 2, name := "rest", nodeType := "FILE",
    contentUrl := .vNull, objectSize := .vInt 5 }

/-- Demonstration server with the three nodes above. -/
def demoServer : VaultServer :=
  { nodes := [demoOrgNode, demoColNode, demoFileNode] }

deriving instance DecidableEq for Except

/-- C8: on the concrete tree, "/c" resolves to the collection node, yet
SplitPath "/c/rest" returns the ORGANIZATION ROOT as its collection
node (because parts[0] of an absolute path is the empty string and
"/" ++ "" resolves to the root), while leaf and relative path are as
claimed; the collection node of the claim is not returned. -/
theorem splitPath_collection_is_root :
    resolvePath demoServer demoOrgNode "/c" = .ok demoColNode
    ∧ splitPath demoServer demoOrgNode "/c/rest"
        = .ok { collectionTreeNode := demoOrgNode,
                leafTreeNode := demoFileNode, relativePath := "rest" }
    ∧ demoOrgNode ≠ demoColNode := by
  decide

/-! ## Content access and the dummy reader (api/types.go TreeNode.Content,
extra/io.go DummyReader)

Content dispatches on the dynamic type of content_url: a string starts a
real HTTP fetch (whose network-level failures are outside this model), a
null produces a DummyReader of the node size with fill byte 0x7c wrapped
in a NopCloser and NO error, and any other type is an error.  The
DummyReader fills each read buffer with the fill byte; on the final read
it overlays the decimal length and a newline near the end of the buffer
and reports N - i bytes with EOF.  When the buffer size divides N the
final read computes the slice index N - i - 1 = -1, a Go runtime panic,
modelled as the none outcome. -/

/-- Go int64 accessor TreeNode.Size: numeric payloads convert to Int,
anything else is 0. -/
def TreeNodeR.size (t : TreeNodeR) : Int :=
  match t.objectSize with
  | .vInt n => n
  | _ => 0

/-- Reader returned by TreeNode.Content. -/
inductive ContentResult where
  | httpFetch (url : String)
  | dummy (n : Int) (c : Nat)
deriving DecidableEq

/-- Embedding of TreeNode.Content: dispatch on the dynamic type of the
content_url field. -/
def TreeNodeR.content (t : TreeNodeR) : Except String ContentResult :=
  match t.contentUrl with
  | .vStr u => .ok (.httpFetch u)
  | .vNull => .ok (.dummy t.size 124)
  | _ => .error "invalid content url type"

/-- In-place overlay of the byte list s into l starting at position pos
(List.set for each byte), as the final-read loop of DummyReader writes
the decimal size into the buffer. -/
def overlay (l : List Nat) (pos : Nat) (s : List Nat) : List Nat :=
  (List.range s.length).foldl (fun acc j => acc.set (pos + j) (s.getD j 0)) l

/-- Bytes of the final DummyReader read from position i with buffer size
bs: a buffer of fill bytes, the decimal rendering of n overlaid when it
fits (the source guards with N-i-2-len > 0), a newline at index N-i-1,
truncated to the N-i bytes reported. -/
def finalChunk (n c i bs : Nat) : List Nat :=
  let p0 := List.replicate bs c
  let ds := (Nat.toDigits 10 n).map fun ch => ch.toNat
  let p1 := if i + 2 + ds.length < n then overlay p0 (n - i - 2 - ds.length) ds
            else p0
  let p2 := p1.set (n - i - 1) 10
  p2.take (n - i)

/-- All bytes yielded by reading a DummyReader of capacity n with a
fixed buffer size b+1 from position i to EOF; none models the Go panic
on the negative slice index that the final read computes when the
position has already reached n exactly. -/
def dummyReadAll (n c b : Nat) : Nat → Option (List Nat) := fun i =>
  if n = 0 then some []
  else if n < i + (b + 1) then
    if n ≤ i then none else some (finalChunk n c i (b + 1))
  else
    match dummyReadAll n c b (i + (b + 1)) with
    | none => none
    | some rest => some (List.replicate (b + 1) c ++ rest)
termination_by i => n - i
decreasing_by omega

lemma overlay_length (l : List Nat) (pos : Nat) (s : List Nat) :
    (overlay l pos s).length = l.length := by
  unfold overlay
  generalize List.range s.length = js
  induction js generalizing l with
  | nil => rfl
  | cons j t ih =>
      rw [List.foldl_cons, ih, List.length_set]

lemma finalChunk_length (n c i bs : Nat) (h : n < i + bs) (h2 : i < n) :
    (finalChunk n c i bs).length = n - i := by
  unfold finalChunk
  rw [List.length_take, List.length_set]
  by_cases hd : i + 2 + ((Nat.toDigits 10 n).map fun ch => ch.toNat).length < n
  · rw [if_pos hd, overlay_length, List.length_replicate]
    omega
  · rw [if_neg hd, List.length_replicate]
    omega

lemma dummyReadAll_length (n c b : Nat) (hnd : ¬ (b + 1) ∣ n) :
    ∀ i, (b + 1) ∣ i → i ≤ n →
      ∃ bytes, dummyReadAll n c b i = some bytes ∧ bytes.length = n - i := by
  have H : ∀ m i, n - i ≤ m → (b + 1) ∣ i → i ≤ n →
      ∃ bytes, dummyReadAll n c b i = some bytes ∧ bytes.length = n - i := by
    intro m
    induction m with
    | zero =>
        intro i hm hdvd hle
        have hin : i = n := by omega
        subst hin
        exact absurd hdvd hnd
    | succ m ih =>
        intro i hm hdvd hle
        have h0 : n ≠ 0 := by
          rintro rfl
          exact hnd (dvd_zero _)
        unfold dummyReadAll
        rw [if_neg h0]
        by_cases h1 : n < i + (b + 1)
        · rw [if_pos h1]
          have hin : i ≠ n := by
            rintro rfl
            exact hnd hdvd
          have hlt : i < n := by omega
          rw [if_neg (by omega : ¬ n ≤ i)]
          exact ⟨_, rfl, finalChunk_length n c i (b + 1) h1 hlt⟩
        · rw [if_neg h1]
          obtain ⟨bytes, hb, hlen⟩ := ih (i + (b + 1)) (by omega)
            (Dvd.dvd.add hdvd (dvd_refl _)) (by omega)
          rw [hb]
          refine ⟨_, rfl, ?_⟩
          rw [List.length_append, List.length_replicate, hlen]
          omega
  intro i hdvd hle
  exact H (n - i) i le_rfl hdvd hle

/-- C10: a FILE tree node whose content_url is null yields a SUCCESSFUL
reader (no error) of fabricated placeholder bytes (fill byte 0x7c): the
dummy reader of the node size; read with any buffer size that does not
divide the size exactly, it yields exactly size bytes before EOF. -/
theorem content_null_dummy (t : TreeNodeR) (n b : Nat)
    (hurl : t.contentUrl = .vNull) (hsize : t.size = (n : Int))
    (hnd : ¬ (b + 1) ∣ n) :
    t.content = .ok (.dummy (n : Int) 124)
    ∧ ∃ bytes, dummyReadAll n 124 b 0 = some bytes ∧ bytes.length = n := by
  constructor
  · unfold TreeNodeR.content
    rw [hurl, ← hsize]
  · obtain ⟨bytes, hb, hlen⟩ :=
      dummyReadAll_length n 124 b hnd 0 (dvd_zero _) (Nat.zero_le n)
    exact ⟨bytes, hb, by omega⟩

/-- Witness for content_null_dummy at the concrete 5-byte file node read
with buffer size 2. -/
theorem content_null_dummy_witness :
    (demoFileNode.contentUrl = GoValue.vNull
      ∧ demoFileNode.size = (5 : Int)
      ∧ ¬ (1 + 1) ∣ 5)
    ∧ (demoFileNode.content = .ok (.dummy (5 : Int) 124)
      ∧ ∃ bytes, dummyReadAll 5 124 1 0 = some bytes ∧ bytes.length = 5) :=
  ⟨⟨rfl, rfl, by decide⟩,
    content_null_dummy demoFileNode 5 1 rfl rfl (by decide)⟩

/-! ## Local cache (cache package, New / SetGroup / GetGroup)

The cache keys grouped entries with the groupKeyFunc installed by New,
which calls fmt.Sprint("%s-%s", k, g).  fmt.Sprint does not interpret
format directives and inserts no space between adjacent string operands,
so the key is the plain concatenation "%s-%s" + k + g.  The Go map is
modelled as an association list where the most recent Set shadows. -/

/-- Embedding of the groupKeyFunc closure installed by cache.New. -/
def groupKeyFunc (k g : String) : String := "%s-%s" ++ k ++ g

/-- Embedding of Cache.Set: record the binding (latest wins). -/
def cacheSet {α : Type} (m : List (String × α)) (k : String) (v : α) :
    List (String × α) := (k, v) :: m

/-- Embedding of Cache.Get: the most recent binding of the key, if any. -/
def cacheGet {α : Type} (m : List (String × α)) (k : String) : Option α :=
  match m.find? fun p => p.1 == k with
  | some p => some p.2
  | none => none

/-- Embedding of Cache.SetGroup. -/
def cacheSetGroup {α : Type} (m : List (String × α)) (k g : String) (v : α) :
    List (String × α) := cacheSet m (groupKeyFunc k g) v

/-- Embedding of Cache.GetGroup. -/
def cacheGetGroup {α : Type} (m : List (String × α)) (k g : String) :
    Option α := cacheGet m (groupKeyFunc k g)

/-- C9: the group key of ("ab","c") equals that of ("a","bc") although
the pairs differ, so a SetGroup under one pair is visible to a GetGroup
under the other: grouped entries are not isolated. -/
theorem cache_groupKey_collision :
    groupKeyFunc "ab" "c" = groupKeyFunc "a" "bc"
    ∧ (("ab", "c") : String × String) ≠ ("a", "bc")
    ∧ ∀ (α : Type) (v : α) (m : List (String × α)),
        cacheGetGroup (cacheSetGroup m "ab" "c" v) "a" "bc" = some v := by
  refine ⟨rfl, by decide, ?_⟩
  intro α v m
  rfl
